import Mathlib

/-!
Shallow embedding of `ccgan/ccgan.py` (Keras-GAN, CCGAN script) and proofs
about its specified behaviour.

The script defines a class `CCGAN` whose constructor fixes the image and
mask geometry, builds and compiles a discriminator, a generator and a
combined model, and whose `train` method runs the training loop.  Images
are modelled as total functions from (row, col, channel) to rational
intensities; numpy arrays of images become lists; numpy's random draws
become explicit oracles (functions from the image index to the drawn
value), with the uniform-range semantics of `np.random.randint` modelled
separately.  All definitions below are translated from the source file.
-/

/-- The instance attributes set by `CCGAN.__init__` (lines 20-27).
The constructor takes no parameters and performs no validation; the
methods read these fields from `self`, so they are parametrised by a
`Config` here. -/
structure Config where
  img_rows : ℕ
  img_cols : ℕ
  mask_height : ℕ
  mask_width : ℕ
  channels : ℕ
  num_classes : ℕ
  deriving DecidableEq, Repr

/-- `CCGAN.__init__` sets `img_rows = 32`, `img_cols = 32`,
`mask_height = 10`, `mask_width = 10`, `channels = 3`, `num_classes = 2`,
unconditionally. -/
def ccganInit : Config :=
  { img_rows := 32, img_cols := 32, mask_height := 10, mask_width := 10,
    channels := 3, num_classes := 2 }

/-- An image: intensity at (row, col, channel).  The numpy array of shape
`(img_rows, img_cols, channels)` is modelled as a total function; only the
in-bounds entries are meaningful. -/
def Image : Type := ℕ → ℕ → ℕ → ℚ

/-- The numpy slice assignment `masked_img[_y1:_y2, _x1:_x2, :] = 0`
performed on a copy of the input image (source lines 139-142).  numpy
clips slice bounds at the array extent, hence the `r < rows` and
`c < cols` conjuncts; the third slice `:` covers every channel.  The
result is a fresh array (the source copies the image first), so the
embedding is a pure function of the input. -/
def sliceZero (rows cols y1 y2 x1 x2 : ℕ) (img : Image) : Image :=
  fun r c ch =>
    if y1 ≤ r ∧ r < y2 ∧ r < rows ∧ x1 ≤ c ∧ c < x2 ∧ c < cols then 0
    else img r c ch

/-- Upper bound of the vertical random draw in `mask_randomly`:
`np.random.randint(0, self.img_rows - self.mask_height, ...)`
(source line 133).  Python subtraction, hence `ℤ`. -/
def mask_y_hi (cfg : Config) : ℤ := (cfg.img_rows : ℤ) - cfg.mask_height

/-- Upper bound of the horizontal random draw in `mask_randomly`:
`np.random.randint(0, self.img_rows - self.mask_width, ...)`
(source line 135).  The source uses `img_rows` here, not `img_cols`. -/
def mask_x_hi (cfg : Config) : ℤ := (cfg.img_rows : ℤ) - cfg.mask_width

/-- Support of `np.random.randint(lo, hi)`: the integers in `[lo, hi)`. -/
def randintSupport (lo hi : ℤ) : Finset ℤ := Finset.Ico lo hi

/-- Probability mass function of `np.random.randint(lo, hi)` (for
`lo < hi`): the discrete uniform distribution on `[lo, hi)`. -/
def randintPMF (lo hi : ℤ) (v : ℤ) : ℚ :=
  if v ∈ randintSupport lo hi then 1 / ((hi : ℚ) - lo) else 0

/-- `CCGAN.mask_randomly` (source lines 132-145).  `np.random.randint`
raises `ValueError: low >= high` when the upper bound is not greater than
the lower bound, independently of the requested size; otherwise it
returns one draw per image, modelled by the oracles `y1s`, `x1s`
(each in `[0, hi)`).  For image `i` the source computes
`y2 = y1 + mask_height`, `x2 = x1 + mask_width`, copies the image and
zeroes the slice `[y1:y2, x1:x2, :]`, writing the copies into a fresh
output array; the input batch is never written to. -/
def mask_randomly (cfg : Config) (y1s x1s : ℕ → ℕ) (imgs : List Image) :
    Except String (List Image) :=
  if mask_y_hi cfg ≤ 0 then Except.error "low >= high"
  else if mask_x_hi cfg ≤ 0 then Except.error "low >= high"
  else Except.ok (imgs.mapIdx (fun i img =>
    sliceZero cfg.img_rows cfg.img_cols
      (y1s i) (y1s i + cfg.mask_height)
      (x1s i) (x1s i + cfg.mask_width) img))

/-- Pixel rescaling in `CCGAN.train` (source lines 170-171):
`X_train = X_train / 255` followed by `X_train = 2 * X_train - 1`. -/
def rescale (p : ℚ) : ℚ := 2 * (p / 255) - 1

/-- C6: For every raw pixel intensity `p` in `{0, ..., 255}`, preprocessing
maps it to `2*(p/255) - 1`, so `0` maps to `-1`, `255` maps to `1`, and
every preprocessed pixel value lies in `[-1, 1]`. -/
theorem rescale_bounds :
    rescale 0 = -1 ∧ rescale 255 = 1 ∧
    ∀ p : ℕ, p ≤ 255 →
      rescale ((p : ℕ) : ℚ) = 2 * (((p : ℕ) : ℚ) / 255) - 1 ∧
      -1 ≤ rescale ((p : ℕ) : ℚ) ∧ rescale ((p : ℕ) : ℚ) ≤ 1 := by
  refine ⟨by norm_num [rescale], by norm_num [rescale], ?_⟩
  intro p hp
  have h0 : (0 : ℚ) ≤ (p : ℚ) := Nat.cast_nonneg p
  have h1 : ((p : ℕ) : ℚ) ≤ 255 := by exact_mod_cast hp
  refine ⟨rfl, ?_, ?_⟩
  · simp only [rescale]
    nlinarith [div_nonneg h0 (by norm_num : (0:ℚ) ≤ 255)]
  · simp only [rescale]
    nlinarith [div_le_one_of_le₀ h1 (by norm_num : (0:ℚ) ≤ 255)]

/-- Witness for `rescale_bounds` at `p = 128`. -/
theorem rescale_bounds_witness :
    rescale ((128 : ℕ) : ℚ) = 2 * (((128 : ℕ) : ℚ) / 255) - 1 ∧
    -1 ≤ rescale ((128 : ℕ) : ℚ) ∧ rescale ((128 : ℕ) : ℚ) ≤ 1 :=
  rescale_bounds.2.2 128 (by norm_num)

/-- C1: whenever the mask fits (mask strictly smaller than the image, the
image at least as wide as tall, matching the script's square 32x32
configuration) and the per-image random draws are in the ranges
`np.random.randint` produces, `mask_randomly` succeeds and returns a
batch of the same length in which, for each image independently, the
pixels inside the one `mask_height` by `mask_width` rectangle at the
drawn offset are `0` on every channel and every pixel outside it equals
the corresponding input pixel; the rectangle lies strictly inside the
image.  The input batch is a pure argument (the source writes only to
per-image copies and a fresh output array), so it is left unmodified. -/
theorem mask_randomly_spec (cfg : Config) (y1s x1s : ℕ → ℕ) (imgs : List Image)
    (hmh : cfg.mask_height < cfg.img_rows)
    (hrc : cfg.img_rows ≤ cfg.img_cols)
    (hy : ∀ i, y1s i < cfg.img_rows - cfg.mask_height)
    (hx : ∀ i, x1s i < cfg.img_rows - cfg.mask_width) :
    ∃ out, mask_randomly cfg y1s x1s imgs = Except.ok out ∧
      out.length = imgs.length ∧
      (∀ i, y1s i + cfg.mask_height < cfg.img_rows ∧
            x1s i + cfg.mask_width < cfg.img_cols) ∧
      ∀ i (hi : i < imgs.length) (ho : i < out.length) (r c ch : ℕ),
        r < cfg.img_rows → c < cfg.img_cols → ch < cfg.channels →
        out.get ⟨i, ho⟩ r c ch =
          (if y1s i ≤ r ∧ r < y1s i + cfg.mask_height ∧
              x1s i ≤ c ∧ c < x1s i + cfg.mask_width then 0
           else imgs.get ⟨i, hi⟩ r c ch) := by
  have hin : ∀ i, y1s i + cfg.mask_height < cfg.img_rows ∧
      x1s i + cfg.mask_width < cfg.img_cols := by
    intro i
    refine ⟨?_, ?_⟩
    · have := hy i; omega
    · have := hx i
      have hw : cfg.mask_width < cfg.img_rows := by omega
      omega
  have hygt : ¬ mask_y_hi cfg ≤ 0 := by
    simp only [mask_y_hi, not_le]
    have : (cfg.mask_height : ℤ) < (cfg.img_rows : ℤ) := by exact_mod_cast hmh
    omega
  have hxgt : ¬ mask_x_hi cfg ≤ 0 := by
    have hw : cfg.mask_width < cfg.img_rows := by
      have := hx 0; omega
    simp only [mask_x_hi, not_le]
    have : (cfg.mask_width : ℤ) < (cfg.img_rows : ℤ) := by exact_mod_cast hw
    omega
  refine ⟨imgs.mapIdx (fun i img =>
      sliceZero cfg.img_rows cfg.img_cols (y1s i) (y1s i + cfg.mask_height)
        (x1s i) (x1s i + cfg.mask_width) img),
    ?_, ?_, hin, ?_⟩
  · simp only [mask_randomly, if_neg hygt, if_neg hxgt]
  · exact List.length_mapIdx
  · intro i hi ho r c ch hr hc hch
    rw [List.get_mapIdx imgs _ i hi]
    simp only [sliceZero]
    by_cases hrect : y1s i ≤ r ∧ r < y1s i + cfg.mask_height ∧
        x1s i ≤ c ∧ c < x1s i + cfg.mask_width
    · rw [if_pos ⟨hrect.1, hrect.2.1, hr, hrect.2.2.1, hrect.2.2.2, hc⟩,
        if_pos hrect]
    · rw [if_neg (by tauto), if_neg hrect]

/-- Witness for `mask_randomly_spec`: the script's configuration, both
offsets drawn as `0`, a one-image batch. -/
theorem mask_randomly_spec_witness :
    ∃ out, mask_randomly ccganInit (fun _ => 0) (fun _ => 0)
        [fun _ _ _ => (1 : ℚ)] = Except.ok out ∧
      out.length = ([fun _ _ _ => (1 : ℚ)] : List Image).length ∧
      (∀ i, (fun _ : ℕ => 0) i + ccganInit.mask_height < ccganInit.img_rows ∧
            (fun _ : ℕ => 0) i + ccganInit.mask_width < ccganInit.img_cols) ∧
      ∀ i (hi : i < ([fun _ _ _ => (1 : ℚ)] : List Image).length)
          (ho : i < out.length) (r c ch : ℕ),
        r < ccganInit.img_rows → c < ccganInit.img_cols →
        ch < ccganInit.channels →
        out.get ⟨i, ho⟩ r c ch =
          (if (fun _ : ℕ => 0) i ≤ r ∧
              r < (fun _ : ℕ => 0) i + ccganInit.mask_height ∧
              (fun _ : ℕ => 0) i ≤ c ∧
              c < (fun _ : ℕ => 0) i + ccganInit.mask_width then 0
           else ([fun _ _ _ => (1 : ℚ)] : List Image).get ⟨i, hi⟩ r c ch) :=
  mask_randomly_spec ccganInit (fun _ => 0) (fun _ => 0) _
    (by decide) (by decide) (fun _ => by exact Nat.succ_pos 21)
    (fun _ => by exact Nat.succ_pos 21)

/-- C7: when `mask_height ≥ img_rows` or `mask_width ≥ img_rows` (the
horizontal bound, like the vertical one, is computed from `img_rows`),
`mask_randomly` fails with the range error of `np.random.randint`
(`low >= high`) on any non-empty batch; the constructor sets the
geometry fields unconditionally, so nothing is validated earlier. -/
theorem mask_randomly_range_error (cfg : Config) (y1s x1s : ℕ → ℕ)
    (imgs : List Image)
    (h : cfg.img_rows ≤ cfg.mask_height ∨ cfg.img_rows ≤ cfg.mask_width)
    (_hne : imgs ≠ []) :
    mask_randomly cfg y1s x1s imgs = Except.error "low >= high" := by
  rcases h with h | h
  · have hle : mask_y_hi cfg ≤ 0 := by
      simp only [mask_y_hi]
      have : (cfg.img_rows : ℤ) ≤ (cfg.mask_height : ℤ) := by exact_mod_cast h
      omega
    simp only [mask_randomly, if_pos hle]
  · by_cases hy : mask_y_hi cfg ≤ 0
    · simp only [mask_randomly, if_pos hy]
    · have hle : mask_x_hi cfg ≤ 0 := by
        simp only [mask_x_hi]
        have : (cfg.img_rows : ℤ) ≤ (cfg.mask_width : ℤ) := by exact_mod_cast h
        omega
      simp only [mask_randomly, if_neg hy, if_pos hle]

/-- Witness for `mask_randomly_range_error`: mask as tall as the image. -/
theorem mask_randomly_range_error_witness :
    mask_randomly ⟨32, 32, 32, 10, 3, 2⟩ (fun _ => 0) (fun _ => 0)
      [fun _ _ _ => (0 : ℚ)] = Except.error "low >= high" :=
  mask_randomly_range_error ⟨32, 32, 32, 10, 3, 2⟩ (fun _ => 0) (fun _ => 0)
    [fun _ _ _ => (0 : ℚ)] (Or.inl (by decide)) (by simp)

/-- C10: the top offset is drawn uniformly from
`{0, ..., img_rows - mask_height - 1}` and the left offset uniformly from
`{0, ..., img_rows - mask_width - 1}`; both ranges exclude the maximal
offset at which the rectangle would still fit, the horizontal range is
computed from `img_rows` (unchanged under any `img_cols`), and every
possible draw keeps the mask's bottom edge strictly above the image's
bottom edge and its right edge strictly left of the image's right edge. -/
theorem mask_offsets_uniform_range (cfg : Config)
    (_hmh : cfg.mask_height < cfg.img_rows)
    (_hmw : cfg.mask_width < cfg.img_rows)
    (hc : cfg.img_cols = cfg.img_rows) :
    randintSupport 0 (mask_y_hi cfg) =
      Finset.Icc 0 ((cfg.img_rows : ℤ) - cfg.mask_height - 1) ∧
    randintSupport 0 (mask_x_hi cfg) =
      Finset.Icc 0 ((cfg.img_rows : ℤ) - cfg.mask_width - 1) ∧
    ((cfg.img_rows : ℤ) - cfg.mask_height) ∉ randintSupport 0 (mask_y_hi cfg) ∧
    ((cfg.img_rows : ℤ) - cfg.mask_width) ∉ randintSupport 0 (mask_x_hi cfg) ∧
    (∀ cols2, mask_x_hi { cfg with img_cols := cols2 } = mask_x_hi cfg) ∧
    (∀ v ∈ randintSupport 0 (mask_y_hi cfg),
      randintPMF 0 (mask_y_hi cfg) v =
        1 / ((cfg.img_rows : ℚ) - cfg.mask_height) ∧
      v + (cfg.mask_height : ℤ) < (cfg.img_rows : ℤ)) ∧
    (∀ v ∈ randintSupport 0 (mask_x_hi cfg),
      randintPMF 0 (mask_x_hi cfg) v =
        1 / ((cfg.img_rows : ℚ) - cfg.mask_width) ∧
      v + (cfg.mask_width : ℤ) < (cfg.img_cols : ℤ)) := by
  refine ⟨?_, ?_, ?_, ?_, ?_, ?_, ?_⟩
  · ext v; simp only [randintSupport, Finset.mem_Ico, Finset.mem_Icc,
      mask_y_hi]; omega
  · ext v; simp only [randintSupport, Finset.mem_Ico, Finset.mem_Icc,
      mask_x_hi]; omega
  · simp only [randintSupport, Finset.mem_Ico, mask_y_hi]; omega
  · simp only [randintSupport, Finset.mem_Ico, mask_x_hi]; omega
  · intro cols2; simp [mask_x_hi]
  · intro v hv
    refine ⟨?_, ?_⟩
    · rw [randintPMF, if_pos hv]
      simp only [mask_y_hi]
      push_cast
      ring_nf
    · simp only [randintSupport, Finset.mem_Ico, mask_y_hi] at hv
      omega
  · intro v hv
    refine ⟨?_, ?_⟩
    · rw [randintPMF, if_pos hv]
      simp only [mask_x_hi]
      push_cast
      ring_nf
    · simp only [randintSupport, Finset.mem_Ico, mask_x_hi] at hv
      omega

/-- Witness for `mask_offsets_uniform_range` at the script's
configuration. -/
theorem mask_offsets_uniform_range_witness :
    randintSupport 0 (mask_y_hi ccganInit) =
      Finset.Icc 0 ((ccganInit.img_rows : ℤ) - ccganInit.mask_height - 1) ∧
    randintSupport 0 (mask_x_hi ccganInit) =
      Finset.Icc 0 ((ccganInit.img_rows : ℤ) - ccganInit.mask_width - 1) ∧
    ((ccganInit.img_rows : ℤ) - ccganInit.mask_height) ∉
      randintSupport 0 (mask_y_hi ccganInit) ∧
    ((ccganInit.img_rows : ℤ) - ccganInit.mask_width) ∉
      randintSupport 0 (mask_x_hi ccganInit) ∧
    (∀ cols2, mask_x_hi { ccganInit with img_cols := cols2 } =
      mask_x_hi ccganInit) ∧
    (∀ v ∈ randintSupport 0 (mask_y_hi ccganInit),
      randintPMF 0 (mask_y_hi ccganInit) v =
        1 / ((ccganInit.img_rows : ℚ) - ccganInit.mask_height) ∧
      v + (ccganInit.mask_height : ℤ) < (ccganInit.img_rows : ℤ)) ∧
    (∀ v ∈ randintSupport 0 (mask_x_hi ccganInit),
      randintPMF 0 (mask_x_hi ccganInit) v =
        1 / ((ccganInit.img_rows : ℚ) - ccganInit.mask_width) ∧
      v + (ccganInit.mask_width : ℤ) < (ccganInit.img_cols : ℤ)) :=
  mask_offsets_uniform_range ccganInit (by decide) (by decide) (by decide)

/-- A layer of the generator's `Sequential` stack: `Conv2D` (filters,
kernel size, strides; always `padding="same"` in this script),
`UpSampling2D` (default size 2), or an `Activation`. -/
inductive GLayer where
  | conv (filters kernel stride : ℕ)
  | up
  | act (name : String)
  deriving DecidableEq, Repr

/-- Spatial extent after a Keras `Conv2D` with `padding="same"`:
`ceil(n / stride)`. -/
def convSameOut (n stride : ℕ) : ℕ := (n + stride - 1) / stride

/-- Shape of a batch tensor `(n, h, w, c)`. -/
structure Shape where
  n : ℕ
  h : ℕ
  w : ℕ
  c : ℕ
  deriving DecidableEq, Repr

/-- Shape transformation of one generator layer: `Conv2D` maps each
spatial extent through `convSameOut` and sets the channel count to its
filter count; `UpSampling2D` doubles both spatial extents; an activation
leaves the shape unchanged. -/
def layerShape : GLayer → Shape → Shape
  | GLayer.conv f _ s, sh => ⟨sh.n, convSameOut sh.h s, convSameOut sh.w s, f⟩
  | GLayer.up, sh => ⟨sh.n, 2 * sh.h, 2 * sh.w, sh.c⟩
  | GLayer.act _, sh => sh

/-- The generator's layer stack, in the order `CCGAN.build_generator`
adds them (source lines 61-90): a three-stage stride-2 encoder, then
three upsample+convolution decoder stages, ending in a `channels`-filter
convolution with `tanh` activation. -/
def build_generator_layers (cfg : Config) : List GLayer :=
  [GLayer.conv 64 4 2, GLayer.act "relu",
   GLayer.conv 128 4 2, GLayer.act "relu",
   GLayer.conv 256 4 2, GLayer.act "relu",
   GLayer.up, GLayer.conv 128 4 1, GLayer.act "relu",
   GLayer.up, GLayer.conv 64 4 1, GLayer.act "relu",
   GLayer.up, GLayer.conv cfg.channels 4 1, GLayer.act "tanh"]

/-- Output shape of the generator on an input of shape `s`: the layer
shape transformations folded in order. -/
def generator_out_shape (cfg : Config) (s : Shape) : Shape :=
  (build_generator_layers cfg).foldl (fun sh l => layerShape l sh) s

theorem sinh_lt_cosh_aux (x : ℝ) : Real.sinh x < Real.cosh x := by
  have h := Real.cosh_sub_sinh x
  nlinarith [Real.exp_pos (-x)]

theorem neg_cosh_lt_sinh_aux (x : ℝ) : -Real.cosh x < Real.sinh x := by
  have h := Real.cosh_add_sinh x
  nlinarith [Real.exp_pos x]

theorem tanh_mem_Ioo_aux (x : ℝ) : Real.tanh x ∈ Set.Ioo (-1 : ℝ) 1 := by
  have hc := Real.cosh_pos x
  rw [Set.mem_Ioo, Real.tanh_eq_sinh_div_cosh]
  refine ⟨?_, ?_⟩
  · rw [lt_div_iff₀ hc]
    nlinarith [neg_cosh_lt_sinh_aux x]
  · rw [div_lt_one hc]
    exact sinh_lt_cosh_aux x

/-- C2: for every batch size `n`, the generator maps an input of shape
`(n, 32, 32, 3)` to an output of the same shape (three stride-2
downsampling stages then three 2x upsampling stages restore 32x32, and
the last convolution has `channels = 3` filters); its last layer is the
`tanh` activation, whose value always lies in `[-1, 1]`. -/
theorem generator_shape_and_range :
    (∀ n : ℕ, generator_out_shape ccganInit ⟨n, 32, 32, 3⟩ = ⟨n, 32, 32, 3⟩) ∧
    (build_generator_layers ccganInit).getLast? = some (GLayer.act "tanh") ∧
    ∀ x : ℝ, Real.tanh x ∈ Set.Icc (-1 : ℝ) 1 := by
  refine ⟨fun n => ?_, rfl, fun x => ?_⟩
  · simp [generator_out_shape, build_generator_layers, layerShape, convSameOut,
      ccganInit]
  · have h := tanh_mem_Ioo_aux x
    rw [Set.mem_Ioo] at h
    exact Set.mem_Icc.mpr ⟨le_of_lt h.1, le_of_lt h.2⟩

/-- The ordered model-level events of `CCGAN.__init__` (source lines
31-58) and of the `CCGAN.train` loop body (source lines 209-240):
`compile` calls, assignments to `self.discriminator.trainable`, the
`train_on_batch` calls, and the checkpoint writes. -/
inductive TrEvent where
  | compile_discriminator
  | compile_generator
  | set_disc_trainable (b : Bool)
  | compile_combined
  | disc_train (real : Bool)
  | combined_train
  | save_files
  deriving DecidableEq, Repr

/-- The events of `CCGAN.__init__`, in source order: the discriminator
is built and compiled (line 32-36), the generator is built and compiled
(lines 39-41), then `self.discriminator.trainable = False` (line 48),
then the combined model is compiled (lines 55-58).  The flag is never
assigned again. -/
def init_trace : List TrEvent :=
  [TrEvent.compile_discriminator, TrEvent.compile_generator,
   TrEvent.set_disc_trainable false, TrEvent.compile_combined]

/-- One epoch of `CCGAN.train`: discriminator `train_on_batch` on the
real half-batch, then on the generated half-batch (lines 213-214), then
`combined.train_on_batch` (line 229), then the conditional checkpoint
write (lines 234-240).  No assignment to `trainable` occurs. -/
def epoch_trace (epoch save_interval : ℕ) : List TrEvent :=
  [TrEvent.disc_train true, TrEvent.disc_train false,
   TrEvent.combined_train] ++
  (if epoch % save_interval = 0 then [TrEvent.save_files] else [])

/-- The events of `for epoch in range(epochs)` in `CCGAN.train`. -/
def train_trace (epochs save_interval : ℕ) : List TrEvent :=
  (List.range epochs).flatMap (fun e => epoch_trace e save_interval)

/-- The discriminator's `trainable` flag after a list of events; Keras
layers and models start with `trainable = True`. -/
def disc_trainable_after (evs : List TrEvent) : Bool :=
  evs.foldl (fun t e =>
    match e with
    | TrEvent.set_disc_trainable b => b
    | _ => t) true

/-- The discriminator `trainable` flag captured when `target` is
compiled: the flag after the events of `__init__` preceding the first
occurrence of `target`.  Keras snapshots the trainable flags when a
model is compiled, so a `train_on_batch` on that model updates the
discriminator's weights exactly when this captured flag is `true`. -/
def disc_trainable_at_compile (target : TrEvent) : Bool :=
  disc_trainable_after (init_trace.takeWhile (fun e => e != target))

/-- Whether an event updates the discriminator's weights: only a
`train_on_batch` call can, and it does so exactly when the discriminator
was trainable when the called model was compiled. -/
def updates_disc_weights : TrEvent → Bool
  | TrEvent.disc_train _ =>
      disc_trainable_at_compile TrEvent.compile_discriminator
  | TrEvent.combined_train =>
      disc_trainable_at_compile TrEvent.compile_combined
  | _ => false

/-- C3: in the constructor the discriminator is compiled before its
`trainable` flag is set to `False`, the combined model is compiled after
it, and nothing in the constructor or the training loop ever sets the
flag to `True`; consequently the discriminator's weights are updated by
its own `train_on_batch` steps (real and fake) but never by a
`combined.train_on_batch` step. -/
theorem disc_trainable_ordering :
    init_trace.indexOf TrEvent.compile_discriminator <
      init_trace.indexOf (TrEvent.set_disc_trainable false) ∧
    init_trace.indexOf (TrEvent.set_disc_trainable false) <
      init_trace.indexOf TrEvent.compile_combined ∧
    TrEvent.set_disc_trainable true ∉ init_trace ∧
    (∀ epochs save_interval b,
      TrEvent.set_disc_trainable b ∉ train_trace epochs save_interval) ∧
    disc_trainable_at_compile TrEvent.compile_discriminator = true ∧
    disc_trainable_at_compile TrEvent.compile_combined = false ∧
    updates_disc_weights (TrEvent.disc_train true) = true ∧
    updates_disc_weights (TrEvent.disc_train false) = true ∧
    updates_disc_weights TrEvent.combined_train = false := by
  refine ⟨by decide, by decide, by decide, ?_, by decide, by decide,
    by decide, by decide, by decide⟩
  intro epochs save_interval b hmem
  rw [train_trace, List.mem_flatMap] at hmem
  obtain ⟨e, -, hmem⟩ := hmem
  rw [epoch_trace] at hmem
  by_cases hsave : e % save_interval = 0 <;> simp [hsave] at hmem

/-- A labelled sample: an image paired with its integer class label
(CIFAR-10 labels are integers `0..9`). -/
def Sample : Type := Image × ℤ

/-- `X_train = np.vstack((X_train, X_test))` together with the matching
label concatenation (source lines 157-158): the provider's train and
test splits are concatenated before any filtering. -/
def dataset_concat (train test : List Sample) : List Sample := train ++ test

/-- The boolean-mask selection `X_train[(y_train == c).flatten()]` /
`y_train[y_train == c]` (source lines 161-164): keep exactly the samples
whose label equals `c`, in order. -/
def extract_class (c : ℤ) (d : List Sample) : List Sample :=
  d.filter (fun p => p.2 == c)

/-- First relabelling pass, `y_train[y_train == 3] = 0` (line 167). -/
def relabel_cats (l : ℤ) : ℤ := if l = 3 then 0 else l

/-- Second relabelling pass, `y_train[y_train == 5] = 1` (line 168). -/
def relabel_dogs (l : ℤ) : ℤ := if l = 5 then 1 else l

/-- Dataset preprocessing of `CCGAN.train` (source lines 153-168):
concatenate the splits, extract the label-3 samples then the label-5
samples (`np.vstack((X_cats, X_dogs))` keeps cats before dogs), and
apply the two relabelling passes in order. -/
def load_and_filter (train test : List Sample) : List Sample :=
  let data := dataset_concat train test
  let cats := extract_class 3 data
  let dogs := extract_class 5 data
  (cats ++ dogs).map (fun p => (p.1, relabel_dogs (relabel_cats p.2)))

/-- C4: preprocessing concatenates the train and test splits, retains
exactly the samples originally labelled 3 (cats, first) or 5 (dogs,
after them), remaps those labels to 0 and 1 respectively, and afterwards
every retained sample's label is 0 or 1 — no other label value
remains. -/
theorem preprocessing_labels (train test : List Sample) :
    load_and_filter train test =
      (extract_class 3 (dataset_concat train test)).map
        (fun p => (p.1, (0 : ℤ))) ++
      (extract_class 5 (dataset_concat train test)).map
        (fun p => (p.1, (1 : ℤ))) ∧
    ∀ p ∈ load_and_filter train test, p.2 = 0 ∨ p.2 = 1 := by
  have h1 : load_and_filter train test =
      (extract_class 3 (dataset_concat train test)).map
        (fun p => (p.1, (0 : ℤ))) ++
      (extract_class 5 (dataset_concat train test)).map
        (fun p => (p.1, (1 : ℤ))) := by
    simp only [load_and_filter, List.map_append]
    congr 1
    · apply List.map_congr_left
      intro p hp
      have h3 : p.2 = 3 := by
        have := (List.mem_filter.mp hp).2
        simpa [extract_class] using this
      simp [relabel_cats, relabel_dogs, h3]
    · apply List.map_congr_left
      intro p hp
      have h5 : p.2 = 5 := by
        have := (List.mem_filter.mp hp).2
        simpa [extract_class] using this
      simp [relabel_cats, relabel_dogs, h5]
  refine ⟨h1, ?_⟩
  intro p hp
  rw [h1] at hp
  rcases List.mem_append.mp hp with h | h <;>
    · rcases List.mem_map.mp h with ⟨q, -, rfl⟩
      simp

/-- `half_batch = int(batch_size / 2)` (source line 173): for
non-negative integers, Python's `int(x / 2)` is floor division. -/
def half_batch (batch_size : ℕ) : ℕ := batch_size / 2

/-- `cw1 = {0: 1, 1: 1}` (source line 180): class weights of the
realism head, as an association list of the dict's entries. -/
def cw1_dict : List (ℕ × ℚ) := [(0, 1), (1, 1)]

/-- `cw2 = {i: self.num_classes / half_batch for i in range(self.num_classes)}`
followed by `cw2[self.num_classes] = 1 / half_batch` (source lines
181-182): class weights of the classification head; the extra key
`num_classes` is the "fake" class. -/
def cw2_dict (cfg : Config) (hb : ℕ) : List (ℕ × ℚ) :=
  (List.range cfg.num_classes).map
    (fun i => (i, (cfg.num_classes : ℚ) / hb)) ++
  [(cfg.num_classes, 1 / (hb : ℚ))]

/-- C5: for every `batch_size` (at least 2, so the Python divisions are
defined), with `half_batch = floor(batch_size / 2)`: the realism head's
weights are 1 for both targets 0 and 1, the classification head's weight
is `num_classes / half_batch` for each of the `num_classes` real classes
and `1 / half_batch` for the extra "fake" class index `num_classes`. -/
theorem class_weights_spec (batch_size : ℕ) (h : 2 ≤ batch_size) :
    half_batch batch_size = batch_size / 2 ∧
    cw1_dict.lookup 0 = some 1 ∧ cw1_dict.lookup 1 = some 1 ∧
    (∀ i < ccganInit.num_classes,
      (cw2_dict ccganInit (half_batch batch_size)).lookup i =
        some ((ccganInit.num_classes : ℚ) / (half_batch batch_size))) ∧
    (cw2_dict ccganInit (half_batch batch_size)).lookup
        ccganInit.num_classes =
      some (1 / (half_batch batch_size : ℚ)) := by
  have hb1 : 1 ≤ half_batch batch_size := by
    simp only [half_batch]; omega
  refine ⟨rfl, rfl, rfl, ?_, ?_⟩
  · intro i hi
    have h2 : ccganInit.num_classes = 2 := rfl
    rw [h2] at hi
    interval_cases i <;>
      simp [cw2_dict, ccganInit, List.range_succ, List.lookup]
  · simp [cw2_dict, ccganInit, List.range_succ, List.lookup]

/-- Witness for `class_weights_spec` at the script's
`batch_size = 64`. -/
theorem class_weights_spec_witness :
    half_batch 64 = 64 / 2 ∧
    cw1_dict.lookup 0 = some 1 ∧ cw1_dict.lookup 1 = some 1 ∧
    (∀ i < ccganInit.num_classes,
      (cw2_dict ccganInit (half_batch 64)).lookup i =
        some ((ccganInit.num_classes : ℚ) / (half_batch 64))) ∧
    (cw2_dict ccganInit (half_batch 64)).lookup ccganInit.num_classes =
      some (1 / (half_batch 64 : ℚ)) :=
  class_weights_spec 64 (by decide)

/-- The arguments recorded by a `compile` call: the loss list and the
loss weights (the optimizer is shared and not modelled). -/
structure CompileSpec where
  losses : List String
  loss_weights : List ℚ

/-- `self.combined.compile(loss=['mse', 'binary_crossentropy'],
loss_weights=[0.999, 0.001], optimizer=optimizer)`
(source lines 55-58). -/
def combined_compile : CompileSpec :=
  { losses := ["mse", "binary_crossentropy"],
    loss_weights := [0.999, 0.001] }

/-- The arguments of a `train_on_batch` call on the combined model:
the input batch and the two targets. -/
structure TrainCall where
  inputs : List Image
  target_imgs : List Image
  target_valid : List ℚ

/-- The generator update of one epoch (source lines 219-229): sample a
full batch `imgs`, mask it, set `valid = np.ones((batch_size, 1))`, and
call `self.combined.train_on_batch(masked_imgs, [imgs, valid])` — the
reconstruction target is the unmasked ground truth and the realism
target is 1 for every sample. -/
def gen_update_call (cfg : Config) (y1s x1s : ℕ → ℕ) (imgs : List Image)
    (batch_size : ℕ) : Except String TrainCall :=
  (mask_randomly cfg y1s x1s imgs).map (fun masked =>
    { inputs := masked, target_imgs := imgs,
      target_valid := List.replicate batch_size 1 })

/-- C8: the combined model is compiled with exactly the two losses
`mse` (reconstructed image) and `binary_crossentropy` (realism score)
with fixed weights 0.999 and 0.001, and each generator update trains it
on the masked batch against the unmasked ground-truth images and a
realism target of 1 for every one of the `batch_size` samples. -/
theorem combined_losses_and_gen_targets :
    combined_compile.losses = ["mse", "binary_crossentropy"] ∧
    combined_compile.loss_weights = [999 / 1000, 1 / 1000] ∧
    ∀ (cfg : Config) (y1s x1s : ℕ → ℕ) (imgs : List Image)
      (batch_size : ℕ) (masked : List Image),
      mask_randomly cfg y1s x1s imgs = Except.ok masked →
      gen_update_call cfg y1s x1s imgs batch_size =
        Except.ok { inputs := masked, target_imgs := imgs,
                    target_valid := List.replicate batch_size 1 } := by
  refine ⟨rfl, by norm_num [combined_compile], ?_⟩
  intro cfg y1s x1s imgs batch_size masked hmask
  simp [gen_update_call, hmask, Except.map]

/-- Witness for `combined_losses_and_gen_targets`: the script's
configuration on the empty batch with `batch_size = 64`. -/
theorem combined_losses_and_gen_targets_witness :
    gen_update_call ccganInit (fun _ => 0) (fun _ => 0) [] 64 =
      Except.ok { inputs := [], target_imgs := [],
                  target_valid := List.replicate 64 1 } :=
  combined_losses_and_gen_targets.2.2 ccganInit (fun _ => 0) (fun _ => 0)
    [] 64 [] rfl

/-- `r, c = 3, 6` in `CCGAN.save_imgs` (source line 243): the sample
grid has 3 rows (real / masked / reconstructed) and 6 columns. -/
def sample_grid_rows : ℕ := 3

/-- Number of sample columns in the grid of `CCGAN.save_imgs`. -/
def sample_grid_cols : ℕ := 6

/-- `fig.savefig("ccgan/images/cifar_%d.png" % epoch)` (source line
263): the grid image's fixed-directory filename with the epoch number
embedded. -/
def save_img_filename (epoch : ℕ) : String :=
  "ccgan/images/cifar_" ++ toString epoch ++ ".png"

/-- The four checkpoint files `CCGAN.save_model` overwrites (source
lines 266-275): architecture and weights for generator and
discriminator, at fixed paths. -/
def save_model_files : List String :=
  ["ccgan/saved_model/ccgan_generator.json",
   "ccgan/saved_model/ccgan_generator_weights.hdf5",
   "ccgan/saved_model/ccgan_discriminator.json",
   "ccgan/saved_model/ccgan_discriminator_weights.hdf5"]

/-- The files written during one epoch of `CCGAN.train` (source lines
234-240): `if epoch % save_interval == 0`, one sample-grid image plus
the four overwritten checkpoint files; otherwise nothing. -/
def epoch_files_written (epoch save_interval : ℕ) : List String :=
  if epoch % save_interval = 0 then
    save_img_filename epoch :: save_model_files
  else []

/-- C9: for every epoch `e` (and positive `save_interval`, as in the
script's call with 50), files are written in epoch `e` iff
`e % save_interval = 0`; in that case exactly one sample-grid image —
`sample_grid_rows = 3` rows by `sample_grid_cols = 6` columns, its
fixed-directory filename embedding the epoch number — plus the four
overwritten checkpoint files are written, so the first save occurs at
epoch 0; at any other epoch no file is written. -/
theorem save_schedule (epoch save_interval : ℕ) (_h : 0 < save_interval) :
    (epoch_files_written epoch save_interval ≠ [] ↔
      epoch % save_interval = 0) ∧
    (epoch % save_interval = 0 →
      epoch_files_written epoch save_interval =
        save_img_filename epoch :: save_model_files) ∧
    (epoch % save_interval ≠ 0 →
      epoch_files_written epoch save_interval = []) ∧
    epoch_files_written 0 save_interval =
      save_img_filename 0 :: save_model_files ∧
    sample_grid_rows = 3 ∧ sample_grid_cols = 6 ∧
    save_img_filename epoch =
      "ccgan/images/cifar_" ++ toString epoch ++ ".png" := by
  have h0 : (0 : ℕ) % save_interval = 0 := Nat.zero_mod save_interval
  by_cases hmod : epoch % save_interval = 0
  · refine ⟨?_, fun _ => ?_, fun hne => absurd hmod hne, ?_, rfl, rfl, rfl⟩
    · simp [epoch_files_written, hmod]
    · simp [epoch_files_written, hmod]
    · simp [epoch_files_written, h0]
  · refine ⟨?_, fun heq => absurd heq hmod, fun _ => ?_, ?_, rfl, rfl, rfl⟩
    · simp [epoch_files_written, hmod]
    · simp [epoch_files_written, hmod]
    · simp [epoch_files_written, h0]

/-- Witness for `save_schedule` at epoch 0 with the script's
`save_interval = 50`. -/
theorem save_schedule_witness :
    (epoch_files_written 0 50 ≠ [] ↔ 0 % 50 = 0) ∧
    (0 % 50 = 0 →
      epoch_files_written 0 50 =
        save_img_filename 0 :: save_model_files) ∧
    (0 % 50 ≠ 0 → epoch_files_written 0 50 = []) ∧
    epoch_files_written 0 50 = save_img_filename 0 :: save_model_files ∧
    sample_grid_rows = 3 ∧ sample_grid_cols = 6 ∧
    save_img_filename 0 = "ccgan/images/cifar_" ++ toString 0 ++ ".png" :=
  save_schedule 0 50 (by decide)
